import Mathlib

/- Verification of the panel signal engine of the stcoktop10 repository:
   LabelGenerator (app/labels.py), EventDetector (app/event_detector.py) and
   TechnicalIndicators (app/indicators.py), embedded shallowly over per-entity
   chronological series.  Numeric cells are rationals; a missing cell (pandas
   NaN / NaT) is `none`.  Pandas comparison semantics are kept: any comparison
   against a missing value is False. -/

/- A nullable numeric cell of a pandas column. -/
abbrev Cell := Option ℚ

/- Boolean-to-0/1 integer: pandas astype(int) applied to a boolean series. -/
def b2i (b : Bool) : Int := if b then 1 else 0

/- Elementwise series comparison: strictly-less, False when either side is NaN. -/
def optLtB : Cell → Cell → Bool
  | some a, some b => decide (a < b)
  | _, _ => false

/- Elementwise series comparison: less-or-equal, False when either side is NaN. -/
def optLeB : Cell → Cell → Bool
  | some a, some b => decide (a ≤ b)
  | _, _ => false

/- Maximum of a list of rationals, none when empty (pandas max of a window). -/
def omax : List ℚ → Option ℚ
  | [] => none
  | x :: xs => some (xs.foldl max x)

/- Minimum of a list of rationals, none when empty. -/
def omin : List ℚ → Option ℚ
  | [] => none
  | x :: xs => some (xs.foldl min x)

namespace Labels

/- One bar of an entity (app/labels.py input rows).  The field for the 'open'
   column is named open_ because open is a Lean keyword. -/
structure Bar where
  open_ : ℚ
  high : ℚ
  low : ℚ
  close : ℚ
deriving Repr, DecidableEq

/- One output row of LabelGenerator.generate_labels.  The target column is
   produced by (cond_profit & cond_survive).astype(int) (labels.py line 107),
   so it is a plain integer, never null.  The diagnostic duplicates
   future_max_20d, future_return, return_5d and exit_price feed nothing and
   are omitted. -/
structure LabelRow where
  entry_price : Cell
  high_roll_20 : Cell
  low_roll_5 : Cell
  target : Int
deriving Repr, DecidableEq

/- labels.py line 42: entry_price = groupby('stock_id')['open'].shift(-1).
   Per entity this is the next bar's open, none at the entity's last bar. -/
def entryPrice (bs : List Bar) (i : Nat) : Cell :=
  (bs[i+1]?).map Bar.open_

/- Forward rolling aggregate with pandas FixedForwardWindowIndexer(window_size
   = w) under the default min_periods (= w): at position p the window is rows
   p .. p+w-1 of the series and the result is NaN unless the whole window lies
   inside the series. -/
def fwdAgg (agg : List ℚ → Option ℚ) (xs : List ℚ) (w p : Nat) : Option ℚ :=
  if p + w ≤ xs.length then agg ((xs.drop p).take w) else none

/- labels.py lines 92-94: per entity, forward rolling max of high with window
   20, then shift(-1): the value at signal index i covers bars i+1 .. i+20. -/
def highRoll20 (bs : List Bar) (i : Nat) : Cell :=
  fwdAgg omax (bs.map Bar.high) 20 (i+1)

/- labels.py lines 96-98: per entity, forward rolling min of low with window
   5, then shift(-1): the value at signal index i covers bars i+1 .. i+5. -/
def lowRoll5 (bs : List Bar) (i : Nat) : Cell :=
  fwdAgg omin (bs.map Bar.low) 5 (i+1)

/- labels.py lines 104-107: cond_profit = high_roll_20 >= entry_price*(1+t),
   cond_survive = low_roll_5 > entry_price*(1-t), target = (cond_profit &
   cond_survive).astype(int); comparisons with NaN are False. -/
def targetOf (θ : ℚ) (e hi lo : Cell) : Int :=
  b2i (optLeB (e.map fun x => x * (1 + θ)) hi && optLtB (e.map fun x => x * (1 - θ)) lo)

/- The label row generate_labels produces for signal index i of one entity. -/
def mkRow (θ : ℚ) (bs : List Bar) (i : Nat) : LabelRow :=
  { entry_price := entryPrice bs i
    high_roll_20 := highRoll20 bs i
    low_roll_5 := lowRoll5 bs i
    target := targetOf θ (entryPrice bs i) (highRoll20 bs i) (lowRoll5 bs i) }

/- All label rows of one entity, in chronological order. -/
def labelEntity (θ : ℚ) (bs : List Bar) : List LabelRow :=
  (List.range bs.length).map (mkRow θ bs)

/- Input frame of generate_labels: the set of column names present, and the
   bar data grouped by entity.  generate_labels sorts by (stock_id, date)
   before any shift/rolling (labels.py line 39), so each group is taken in
   chronological order. -/
structure RawPanel where
  cols : List String
  groups : List (String × List Bar)

/- labels.py line 34: the validated column set. -/
def requiredCols : List String := ["stock_id", "date", "open", "close"]

/- Whether an Except call returned normally. -/
def exceptOk {ε α : Type} : Except ε α → Bool
  | .ok _ => true
  | .error _ => false

/- labels.py generate_labels, lines 20-121: the required-column check (lines
   34-36) raises ValueError; afterwards the first subscript of the 'high'
   column (line 50) and of the 'low' column (line 70) raise KeyError when
   those columns are absent; otherwise the per-entity label rows are built
   and no other statement can raise on well-typed input. -/
def generateLabels (θ : ℚ) (p : RawPanel) : Except String (List (String × List LabelRow)) :=
  if requiredCols.all (fun c => p.cols.contains c) then
    if p.cols.contains "high" then
      if p.cols.contains "low" then
        .ok (p.groups.map fun g => (g.1, labelEntity θ g.2))
      else .error "KeyError: low"
    else .error "KeyError: high"
  else .error "ValueError: missing required columns"

/- The same row computed from only the strictly-future bars of the entity
   (everything after the signal bar).  Used to state that generate_labels'
   entry_price / forward extrema / target at index i are a function of
   bs.drop (i+1) alone. -/
def rowFromFuture (θ : ℚ) (fut : List Bar) : LabelRow :=
  { entry_price := (fut[0]?).map Bar.open_
    high_roll_20 := fwdAgg omax (fut.map Bar.high) 20 0
    low_roll_5 := fwdAgg omin (fut.map Bar.low) 5 0
    target := targetOf θ ((fut[0]?).map Bar.open_)
      (fwdAgg omax (fut.map Bar.high) 20 0) (fwdAgg omin (fut.map Bar.low) 5 0) }

/- A 22-bar fixture entity: flat bars at price 10 except a high spike of 100
   at index 2. -/
def flatBar : Bar := { open_ := 10, high := 10, low := 10, close := 10 }

def spikeBar : Bar := { open_ := 10, high := 100, low := 10, close := 10 }

def exBars : List Bar := [flatBar, flatBar, spikeBar] ++ List.replicate 19 flatBar

/- A panel carrying exactly the four validated columns but neither high nor
   low. -/
def panelMissingHigh : RawPanel :=
  { cols := ["stock_id", "date", "open", "close"], groups := [("2330", [flatBar])] }

end Labels


/- Shared trailing-rolling machinery for event and indicator series.  A
   per-entity column is a function from row position to nullable cell; pandas
   shift(1) and rolling(window = w) with the default min_periods (= w, counting
   non-NaN observations) are modelled on it. -/

/- pandas shift(1): the previous row's value, NaN at the first row. -/
def prevF (s : Nat → Cell) : Nat → Cell
  | 0 => none
  | t + 1 => s t

/- All cells present, or none: how min_periods = w decides whether a full
   window of w rows has w non-NaN observations. -/
def allSome : List Cell → Option (List ℚ)
  | [] => some []
  | none :: _ => none
  | some x :: xs => (allSome xs).map (fun l => x :: l)

/- The trailing window of w rows ending at row t (rows t+1-w .. t), defined
   when the window is full and every cell is present. -/
def rollWin (s : Nat → Cell) (w t : Nat) : Option (List ℚ) :=
  if w ≤ t + 1 then allSome ((List.range w).map fun j => s (t + 1 - w + j)) else none

/- rolling(w).max() at row t. -/
def rollMax (s : Nat → Cell) (w t : Nat) : Cell := (rollWin s w t).bind omax

/- rolling(w).min() at row t. -/
def rollMin (s : Nat → Cell) (w t : Nat) : Cell := (rollWin s w t).bind omin

/- Mean of a list of rationals, none when empty. -/
def omean : List ℚ → Option ℚ
  | [] => none
  | x :: xs => some ((x :: xs).sum / (x :: xs).length)

/- rolling(w).mean() at row t. -/
def rollMean (s : Nat → Cell) (w t : Nat) : Cell := (rollWin s w t).bind omean

/- View a stored column (list of cells) as a series; out of range is none. -/
def colFun (xs : List Cell) : Nat → Cell := fun t => (xs[t]?).join

/- Specification-side maximum of f over positions a .. a+k. -/
def maxOver (f : Nat → ℚ) (a : Nat) : Nat → ℚ
  | 0 => f a
  | k + 1 => max (maxOver f a k) (f (a + k + 1))

/- Specification-side minimum of f over positions a .. a+k. -/
def minOver (f : Nat → ℚ) (a : Nat) : Nat → ℚ
  | 0 => f a
  | k + 1 => min (minOver f a k) (f (a + k + 1))

/- Elementwise series arithmetic with NaN propagation. -/
def oSub : Cell → Cell → Cell
  | some a, some b => some (a - b)
  | _, _ => none

def oAbs : Cell → Cell
  | some a => some |a|
  | none => none

/- Series multiplied by a scalar. -/
def oMul (a : Cell) (c : ℚ) : Cell := a.map (fun x => x * c)

/- Rowwise max of two columns, pandas DataFrame.max(axis=1) with its default
   skipna=True (event_detector.py line 205). -/
def rowMax2 : Cell → Cell → Cell
  | some a, some b => some (max a b)
  | some a, none => some a
  | none, some b => some b
  | none, none => none

namespace Events

/- A YAML parameter value of a rule descriptor. -/
inductive PVal where
  | int (n : Int)
  | num (q : ℚ)
  | str (s : String)
deriving Repr, DecidableEq

abbrev Params := List (String × PVal)

/- One configured rule {name, type, params} from config/signals.yaml. -/
structure Rule where
  name : String
  type : String
  params : Params

/- One entity's slice of the feature frame handed to EventDetector: its row
   count and its named columns (EventDetector sorts by (stock_id, date), so
   rows are chronological). -/
structure Entity where
  n : Nat
  cols : List (String × List Cell)

/- The whole feature frame: the global column-name set (self.df.columns) and
   the per-entity groups in groupby order.  Panel invariant: every entity
   carries every global column with e.n rows. -/
structure EvPanel where
  colNames : List String
  entities : List Entity

/- group[c] as a series. -/
def Entity.colF (e : Entity) (c : String) : Nat → Cell := fun t =>
  match e.cols.lookup c with
  | some xs => colFun xs t
  | none => none

def totalRows (p : EvPanel) : Nat := (p.entities.map (fun e => e.n)).sum

/- pd.Series(0, index=self.df.index): the all-zero signal column. -/
def zerosP (p : EvPanel) : List Int :=
  p.entities.flatMap fun e => List.replicate e.n 0

/- The groupby loop: compute a boolean per row of each entity, 0/1-encode it,
   and concatenate the groups back in original order (pd.concat + sort_index). -/
def perEntity (p : EvPanel) (f : Entity → Nat → Bool) : List Int :=
  p.entities.flatMap fun e => (List.range e.n).map fun t => b2i (f e t)

/- params.get(key, default) for an integer window parameter; pandas rolling
   rejects non-integer windows with a TypeError. -/
def getIntD (ps : Params) (k : String) (d : Int) : Except String Int :=
  match ps.lookup k with
  | none => .ok d
  | some (.int n) => .ok n
  | some _ => .error "TypeError: window must be an integer"

/- params.get(key, default) for a numeric parameter (Python float() accepts
   int and float; multiplying a series by a string raises). -/
def getNumD (ps : Params) (k : String) (d : ℚ) : Except String ℚ :=
  match ps.lookup k with
  | none => .ok d
  | some (.int n) => .ok (n : ℚ)
  | some (.num q) => .ok q
  | some (.str _) => .error "TypeError: non-numeric parameter"

/- params.get(key, default) for the direction string; a non-string value
   simply compares unequal to 'up' (Python ==), selecting the down branch. -/
def getStrD (ps : Params) (k : String) (d : String) : String :=
  match ps.lookup k with
  | none => d
  | some (.str s) => s
  | some _ => ""

/- params[key]: KeyError when absent. -/
def getReq (ps : Params) (k : String) : Except String PVal :=
  match ps.lookup k with
  | some v => .ok v
  | none => .error "KeyError: missing parameter"

/- A pandas rolling window size from an integer parameter: negative sizes
   raise. -/
def toWindow (n : Int) : Except String Nat :=
  if n < 0 then .error "ValueError: window must be non-negative" else .ok n.toNat

/- event_detector.py lines 99-100 (and indicators.py line 183-185): 'up'
   breakout at row t: close[t] > max(high over the w rows before t):
   high.shift(1).rolling(w).max() compared below close. -/
def breakAt (high close : Nat → Cell) (w t : Nat) : Bool :=
  optLtB (rollMax (prevF high) w t) (close t)

/- event_detector.py lines 125-133: crossing of fast over slow on the bar of
   the crossing; any direction other than 'up' takes the down branch. -/
def crossAt (fast slow : Nat → Cell) (dir : String) (t : Nat) : Bool :=
  if dir == "up" then
    optLeB (prevF fast t) (prevF slow t) && optLtB (slow t) (fast t)
  else
    optLeB (prevF slow t) (prevF fast t) && optLtB (fast t) (slow t)

/- event_detector.py lines 163-177 with a scalar threshold: the threshold has
   no previous-row shift. -/
def threshAtScalar (tgt : Nat → Cell) (c : ℚ) (dir : String) (t : Nat) : Bool :=
  if dir == "up" then
    optLeB (prevF tgt t) (some c) && optLtB (some c) (tgt t)
  else
    optLeB (some c) (prevF tgt t) && optLtB (tgt t) (some c)

/- event_detector.py line 199: gap_up_strong: (close > open) and
   (open > prev high). -/
def gapUpAt (op cl hi : Nat → Cell) (t : Nat) : Bool :=
  optLtB (op t) (cl t) && optLtB (prevF hi t) (op t)

/- event_detector.py lines 203-211: long_upper_shadow:
   upper_shadow > body * ratio where body = |close - open| and
   upper_shadow = high - max(open, close); there is no absolute-length
   floor in this rule. -/
def shadowAt (r : ℚ) (op cl hi : Nat → Cell) (t : Nat) : Bool :=
  optLtB (oMul (oAbs (oSub (cl t) (op t))) r) (oSub (hi t) (rowMax2 (op t) (cl t)))

/- event_detector.py line 241: volume event: vol > rolling(w).mean().shift(1)
   * ratio. -/
def volAt (r : ℚ) (vol : Nat → Cell) (w t : Nat) : Bool :=
  optLtB (oMul (prevF (fun u => rollMean vol w u) t) r) (vol t)

/- _detect_price_breakout (event_detector.py lines 89-107).  The branch taken
   subscripts 'high' (up) or 'low' (down) plus 'close'; a missing subscripted
   column raises KeyError inside the rule computation. -/
def detectPriceBreakout (p : EvPanel) (ps : Params) : Except String (List Int) :=
  match getIntD ps "period" 20 with
  | .error e => .error e
  | .ok wi =>
    match toWindow wi with
    | .error e => .error e
    | .ok w =>
      if getStrD ps "direction" "up" == "up" then
        if p.colNames.contains "high" && p.colNames.contains "close" then
          .ok (perEntity p fun e t => breakAt (e.colF "high") (e.colF "close") w t)
        else .error "KeyError: column"
      else
        if p.colNames.contains "low" && p.colNames.contains "close" then
          .ok (perEntity p fun e t => optLtB (e.colF "close" t) (rollMin (prevF (e.colF "low")) w t))
        else .error "KeyError: column"

/- _detect_crossover (lines 109-137): params['fast_ma'] / params['slow_ma']
   raise KeyError when absent; a missing referenced column (or a non-string
   parameter, which is simply not among the column names) yields the zero
   column, never an exception. -/
def detectCrossover (p : EvPanel) (ps : Params) : Except String (List Int) :=
  match getReq ps "fast_ma" with
  | .error e => .error e
  | .ok fv =>
    match getReq ps "slow_ma" with
    | .error e => .error e
    | .ok sv =>
      let dir := getStrD ps "direction" "up"
      match fv, sv with
      | .str fc, .str sc =>
        if p.colNames.contains fc && p.colNames.contains sc then
          .ok (perEntity p fun e t => crossAt (e.colF fc) (e.colF sc) dir t)
        else .ok (zerosP p)
      | _, _ => .ok (zerosP p)

/- _detect_threshold_cross (lines 139-181): a missing target column yields the
   zero column; a string threshold that names a column uses that column with
   the same crossing semantics as crossover; a numeric threshold is a constant
   series; a string threshold naming no column reaches float(threshold), which
   raises for the non-numeric strings modelled here (config strings parsed as
   YAML numbers arrive as .int/.num). -/
def detectThresholdCross (p : EvPanel) (ps : Params) : Except String (List Int) :=
  match getReq ps "target" with
  | .error e => .error e
  | .ok tv =>
    match getReq ps "threshold" with
    | .error e => .error e
    | .ok thv =>
      let dir := getStrD ps "direction" "up"
      match tv with
      | .str tc =>
        if p.colNames.contains tc then
          match thv with
          | .int n => .ok (perEntity p fun e t => threshAtScalar (e.colF tc) (n : ℚ) dir t)
          | .num q => .ok (perEntity p fun e t => threshAtScalar (e.colF tc) q dir t)
          | .str ts =>
            if p.colNames.contains ts then
              .ok (perEntity p fun e t => crossAt (e.colF tc) (e.colF ts) dir t)
            else .error "ValueError: could not convert string to float"
        else .ok (zerosP p)
      | _ => .ok (zerosP p)

/- _detect_pattern (lines 183-218): params['pattern_type'] raises when absent;
   every group subscripts open/close/high/low (lines 189-194) before the type
   is examined; an unrecognized pattern_type yields the zero column. -/
def detectPattern (p : EvPanel) (ps : Params) : Except String (List Int) :=
  match getReq ps "pattern_type" with
  | .error e => .error e
  | .ok ptv =>
    if p.colNames.contains "open" && p.colNames.contains "close" &&
       p.colNames.contains "high" && p.colNames.contains "low" then
      match ptv with
      | .str "gap_up_strong" =>
        .ok (perEntity p fun e t => gapUpAt (e.colF "open") (e.colF "close") (e.colF "high") t)
      | .str "long_upper_shadow" =>
        match getNumD ps "ratio" 2 with
        | .error e => .error e
        | .ok r =>
          .ok (perEntity p fun e t => shadowAt r (e.colF "open") (e.colF "close") (e.colF "high") t)
      | _ => .ok (zerosP p)
    else .error "KeyError: column"

/- _detect_volume_event (lines 220-245): subscripts 'volume'; prefers a
   precomputed volume_ratio_{period}d column, else compares volume against the
   shifted rolling mean times ratio. -/
def detectVolume (p : EvPanel) (ps : Params) : Except String (List Int) :=
  match getNumD ps "ratio" 2 with
  | .error e => .error e
  | .ok r =>
    match getIntD ps "period" 5 with
    | .error e => .error e
    | .ok wi =>
      match toWindow wi with
      | .error e => .error e
      | .ok w =>
        if p.colNames.contains "volume" then
          if p.colNames.contains ("volume_ratio_" ++ toString wi ++ "d") then
            .ok (perEntity p fun e t =>
              optLtB (some r) (e.colF ("volume_ratio_" ++ toString wi ++ "d") t))
          else
            .ok (perEntity p fun e t => volAt r (e.colF "volume") w t)
        else .error "KeyError: column"

/- detect_all_events dispatch on the rule type (lines 66-78); an unknown type
   yields the zero series with a warning. -/
def dispatch (p : EvPanel) (r : Rule) : Except String (List Int) :=
  if r.type == "price_breakout" then detectPriceBreakout p r.params
  else if r.type == "crossover" then detectCrossover p r.params
  else if r.type == "threshold_cross" then detectThresholdCross p r.params
  else if r.type == "pattern" then detectPattern p r.params
  else if r.type == "volume" then detectVolume p r.params
  else .ok (zerosP p)

/- The per-rule try/except (lines 65-84): any exception inside one rule's
   computation is caught and that rule's column is set to the scalar 0
   (broadcast over all rows); the remaining rules are unaffected. -/
def runRule (p : EvPanel) (r : Rule) : List Int :=
  match dispatch p r with
  | .ok s => s
  | .error _ => zerosP p

/- detect_all_events (lines 43-87): one 0/1 integer column per configured
   rule, keyed by the rule name, over the panel's (date, stock_id) keys. -/
def detectAllEvents (p : EvPanel) (rules : List Rule) : List (String × List Int) :=
  rules.map fun r => (r.name, runRule p r)

/- The five recognized rule types. -/
def knownTypes : List String :=
  ["price_breakout", "crossover", "threshold_cross", "pattern", "volume"]

/- Fixture: a one-bar doji entity with a small upper shadow: open = close =
   1000, high = 1001, low = 999.  The upper shadow (1) is far below any
   floor proportional to price (0.5% of close would be 5), yet the body is 0,
   so upper_shadow > body * ratio holds. -/
def dojiEntity : Entity :=
  { n := 1,
    cols := [("open", [some 1000]), ("high", [some 1001]),
             ("low", [some 999]), ("close", [some 1000])] }

def dojiPanel : EvPanel :=
  { colNames := ["open", "high", "low", "close"], entities := [dojiEntity] }

def shadowParams : Params := [("pattern_type", .str "long_upper_shadow")]

end Events


namespace Indicators

/- TechnicalIndicators (app/indicators.py) works on the wide pivot frame:
   index = all dates of the panel, one column per entity.  One pivot column is
   a list of cells over the global date index, none where the entity has no
   row for that date (or the input is NaN). -/

/- indicators.py line 69: close.rolling(window=n).mean() on one pivot column
   (default min_periods = n non-NaN observations in the window). -/
def maCol (n : Nat) (close : List Cell) : List Cell :=
  (List.range close.length).map fun t => rollMean (colFun close) n t

/- indicators.py lines 183-185: rolling_max = high.shift(1).rolling(n).max();
   breakout = (close > rolling_max).astype(int).  The comparison against NaN
   is False, so the column is integer 0/1 everywhere, never null; the formula
   is the shared breakAt core of the event detector's price_breakout. -/
def breakoutFlagCol (n : Nat) (high close : List Cell) : List Int :=
  (List.range close.length).map fun t =>
    b2i (Events.breakAt (colFun high) (colFun close) n t)

/- The pivot column of an entity whose rows start at global date index k and
   run gap-free to the end of the panel calendar, with non-null values xs. -/
def pivotCol (k : Nat) (xs : List ℚ) : List Cell :=
  List.replicate k none ++ xs.map some

/- indicators.py lines 110-114: delta = close.diff(); gain = delta.clip(lower
   = 0); loss = -delta.clip(upper=0).  diff is NaN at the entity's first row,
   so gains/losses exist from row 1 on; gainAt u is the gain at row u+1. -/
def gainAt (close : Nat → ℚ) (u : Nat) : ℚ := max (close (u+1) - close u) 0

def lossAt (close : Nat → ℚ) (u : Nat) : ℚ := max (close u - close (u+1)) 0

/- ewm(alpha, adjust=False).mean() over a series whose row 0 is NaN (the
   diff): the first non-NaN value seeds the recursion, subsequent rows follow
   y[t] = alpha*x[t] + (1-alpha)*y[t-1].  wilder a g u is the value at row
   u+1 for the inputs g 0, g 1, ... at rows 1, 2, .... -/
def wilder (a : ℚ) (g : Nat → ℚ) : Nat → ℚ
  | 0 => g 0
  | u + 1 => a * g (u+1) + (1 - a) * wilder a g u

/- indicators.py lines 119-120, alpha = 1/period (Wilder smoothing). -/
def avgGain (period : Nat) (close : Nat → ℚ) (u : Nat) : ℚ :=
  wilder (1 / (period : ℚ)) (gainAt close) u

def avgLoss (period : Nat) (close : Nat → ℚ) (u : Nat) : ℚ :=
  wilder (1 / (period : ℚ)) (lossAt close) u

/- IEEE-754 double values reachable by the RSI computation, modelled over
   exact rationals plus the two infinities and NaN. -/
inductive XQ where
  | fin (q : ℚ)
  | pinf
  | ninf
  | nan
deriving Repr, DecidableEq

/- IEEE addition restricted to these values. -/
def XQ.add : XQ → XQ → XQ
  | .nan, _ => .nan
  | _, .nan => .nan
  | .fin a, .fin b => .fin (a + b)
  | .fin _, .pinf => .pinf
  | .fin _, .ninf => .ninf
  | .pinf, .fin _ => .pinf
  | .ninf, .fin _ => .ninf
  | .pinf, .pinf => .pinf
  | .ninf, .ninf => .ninf
  | .pinf, .ninf => .nan
  | .ninf, .pinf => .nan

/- IEEE subtraction. -/
def XQ.sub : XQ → XQ → XQ
  | .nan, _ => .nan
  | _, .nan => .nan
  | .fin a, .fin b => .fin (a - b)
  | .fin _, .pinf => .ninf
  | .fin _, .ninf => .pinf
  | .pinf, .fin _ => .pinf
  | .ninf, .fin _ => .ninf
  | .pinf, .pinf => .nan
  | .ninf, .ninf => .nan
  | .pinf, .ninf => .pinf
  | .ninf, .pinf => .ninf

/- IEEE division: x/0 is a signed infinity for x nonzero and NaN for 0/0
   (the zeros reachable here are unsigned positive zeros); x/inf is 0. -/
def XQ.div : XQ → XQ → XQ
  | .nan, _ => .nan
  | _, .nan => .nan
  | .fin a, .fin b =>
    if b = 0 then (if 0 < a then .pinf else if a < 0 then .ninf else .nan)
    else .fin (a / b)
  | .fin _, .pinf => .fin 0
  | .fin _, .ninf => .fin 0
  | .pinf, .fin b => if b < 0 then .ninf else .pinf
  | .ninf, .fin b => if b < 0 then .pinf else .ninf
  | .pinf, .pinf => .nan
  | .pinf, .ninf => .nan
  | .ninf, .pinf => .nan
  | .ninf, .ninf => .nan

/- indicators.py lines 122-123 at row u+1 of one entity: rs = avg_gain /
   avg_loss; rsi = 100 - (100 / (1 + rs)), in 64-bit float semantics; a nan
   cell is a null in the merged long frame. -/
def rsiAt (period : Nat) (close : Nat → ℚ) (u : Nat) : XQ :=
  XQ.sub (.fin 100)
    (XQ.div (.fin 100)
      (XQ.add (.fin 1)
        (XQ.div (.fin (avgGain period close u)) (.fin (avgLoss period close u)))))

/- Fixture: a two-step strictly rising close series. -/
def risingClose : Nat → ℚ := fun t => if t = 0 then 0 else 1

end Indicators

namespace Labels

lemma optLeB_none_right (a : Cell) : optLeB a none = false := by cases a <;> rfl

lemma optLtB_none_right (a : Cell) : optLtB a none = false := by cases a <;> rfl

lemma b2i_eq_one_iff (b : Bool) : b2i b = 1 ↔ b = true := by cases b <;> simp [b2i]

lemma exists_omax (l : List ℚ) (h : l ≠ []) : ∃ M, omax l = some M := by
  cases l with
  | nil => exact absurd rfl h
  | cons x xs => exact ⟨xs.foldl max x, rfl⟩

lemma exists_omin (l : List ℚ) (h : l ≠ []) : ∃ m, omin l = some m := by
  cases l with
  | nil => exact absurd rfl h
  | cons x xs => exact ⟨xs.foldl min x, rfl⟩

/- A forward window fully contained in the first m rows is unaffected by
   truncating the series to m rows. -/
lemma fwdAgg_take (agg : List ℚ → Option ℚ) (xs : List ℚ) (w p m : Nat)
    (h : p + w ≤ m) : fwdAgg agg (xs.take m) w p = fwdAgg agg xs w p := by
  unfold fwdAgg
  rw [List.length_take]
  by_cases hl : p + w ≤ xs.length
  · rw [if_pos (le_min (by omega) hl), if_pos hl]
    congr 1
    rw [List.drop_take, List.take_take]
    congr 1
    omega
  · rw [if_neg (by omega), if_neg hl]

/- A forward window at offset p is the window at offset 0 of the dropped
   series. -/
lemma fwdAgg_drop (agg : List ℚ → Option ℚ) (xs : List ℚ) (w p : Nat) (hw : 0 < w) :
    fwdAgg agg xs w p = fwdAgg agg (xs.drop p) w 0 := by
  unfold fwdAgg
  rw [List.length_drop, List.drop_zero]
  by_cases h : p + w ≤ xs.length
  · rw [if_pos h, if_pos (by omega)]
  · rw [if_neg h, if_neg (by omega)]

lemma entryPrice_drop (bs : List Bar) (i : Nat) :
    entryPrice bs i = ((bs.drop (i+1))[0]?).map Bar.open_ := by
  unfold entryPrice
  rw [List.getElem?_drop]

lemma highRoll20_drop (bs : List Bar) (i : Nat) :
    highRoll20 bs i = fwdAgg omax ((bs.drop (i+1)).map Bar.high) 20 0 := by
  unfold highRoll20
  rw [fwdAgg_drop _ _ _ _ (by norm_num), List.map_drop]

lemma lowRoll5_drop (bs : List Bar) (i : Nat) :
    lowRoll5 bs i = fwdAgg omin ((bs.drop (i+1)).map Bar.low) 5 0 := by
  unfold lowRoll5
  rw [fwdAgg_drop _ _ _ _ (by norm_num), List.map_drop]

lemma entryPrice_take (bs : List Bar) (i m : Nat) (h : i + 2 ≤ m) :
    entryPrice (bs.take m) i = entryPrice bs i := by
  unfold entryPrice
  rw [List.getElem?_take, if_pos (by omega : i + 1 < m)]

lemma highRoll20_take (bs : List Bar) (i m : Nat) (h : i + 21 ≤ m) :
    highRoll20 (bs.take m) i = highRoll20 bs i := by
  unfold highRoll20
  rw [List.map_take, fwdAgg_take _ _ _ _ _ (by omega)]

lemma lowRoll5_take (bs : List Bar) (i m : Nat) (h : i + 6 ≤ m) :
    lowRoll5 (bs.take m) i = lowRoll5 bs i := by
  unfold lowRoll5
  rw [List.map_take, fwdAgg_take _ _ _ _ _ (by omega)]

end Labels

/-- C1 (amended): strict causality of LabelGenerator.generate_labels: for every
entity and signal index i, the whole label row (entry_price, forward max high,
forward min low, target) is a function of the bars strictly after i alone; and
truncating the entity's history anywhere at or after bar i+21 (i.e. strictly
after i+20, the last bar the 20-bar profit window can reach) never changes the
row computed for i.  (The original claim's truncation point D+1 is refuted by
the counterexample: the target is an integer 0/1 column, so an incomplete
forward window yields 0, which later history can turn into 1.) -/
theorem c1_no_leakage_amended (θ : ℚ) (bs : List Labels.Bar) :
    (∀ i, Labels.mkRow θ bs i = Labels.rowFromFuture θ (bs.drop (i+1)))
    ∧ (∀ i m, i + 21 ≤ m → Labels.mkRow θ (bs.take m) i = Labels.mkRow θ bs i) := by
  constructor
  · intro i
    unfold Labels.mkRow Labels.rowFromFuture
    rw [Labels.entryPrice_drop, Labels.highRoll20_drop, Labels.lowRoll5_drop]
  · intro i m him
    unfold Labels.mkRow
    rw [Labels.entryPrice_take bs i m (by omega), Labels.highRoll20_take bs i m (by omega),
      Labels.lowRoll5_take bs i m (by omega)]

/-- Witness for C1 at a concrete input: truncating the 22-bar fixture at bar 21
(one past the profit window of signal index 0) leaves row 0 unchanged. -/
theorem c1_no_leakage_amended_witness :
    Labels.mkRow (5/100) (Labels.exBars.take 21) 0 = Labels.mkRow (5/100) Labels.exBars 0 :=
  (c1_no_leakage_amended (5/100) Labels.exBars).2 0 21 (by omega)

set_option maxRecDepth 4000 in
/-- Counterexample to C1 as stated: on the 22-bar fixture (threshold 1), the
label of signal index 0 computed on the history truncated strictly after bar 1
(D+1) is 0, while on the full history it is 1 — truncating at D+1 changes the
label already computed for D. -/
theorem c1_counterexample :
    (Labels.mkRow 1 (Labels.exBars.take 2) 0).target = 0
    ∧ (Labels.mkRow 1 Labels.exBars 0).target = 1 := by
  have he : Labels.entryPrice Labels.exBars 0 = some 10 := by decide
  have hh : Labels.highRoll20 Labels.exBars 0 = some 100 := by decide
  have hl : Labels.lowRoll5 Labels.exBars 0 = some 10 := by decide
  constructor
  · decide
  · simp only [Labels.mkRow]
    rw [he, hh, hl]
    simp only [Labels.targetOf, optLeB, optLtB, Option.map_some']
    norm_num [b2i]

/-- C2 (amended): for every entity whose history extends at least 21 bars past
signal index i, the forward extrema and entry price are defined and
target = 1 iff forward_max_high ≥ entry_price·(1+θ) and
forward_min_low > entry_price·(1−θ), both tests sharing the one threshold θ
(profit window = 20 bars, survival window = 5 bars, fixed); for every row whose
forward profit window is incomplete the target is the integer 0 — not null:
the target column is (cond_profit & cond_survive).astype(int), and comparisons
against a missing value are False. -/
theorem c2_target_amended (θ : ℚ) (bs : List Labels.Bar) :
    (∀ i, i + 21 ≤ bs.length →
      ∃ M m e, Labels.highRoll20 bs i = some M ∧ Labels.lowRoll5 bs i = some m ∧
        Labels.entryPrice bs i = some e ∧
        ((Labels.mkRow θ bs i).target = 1 ↔ (e * (1 + θ) ≤ M ∧ e * (1 - θ) < m)))
    ∧ (∀ i, bs.length < i + 21 → (Labels.mkRow θ bs i).target = 0) := by
  constructor
  · intro i h
    obtain ⟨M, hM⟩ : ∃ M, Labels.highRoll20 bs i = some M := by
      unfold Labels.highRoll20 Labels.fwdAgg
      rw [if_pos (by simpa using (by omega : i + 1 + 20 ≤ bs.length))]
      apply Labels.exists_omax
      have : (((bs.map Labels.Bar.high).drop (i+1)).take 20).length = 20 := by
        rw [List.length_take, List.length_drop, List.length_map]
        omega
      intro hnil
      rw [hnil] at this
      simp at this
    obtain ⟨m, hm⟩ : ∃ m, Labels.lowRoll5 bs i = some m := by
      unfold Labels.lowRoll5 Labels.fwdAgg
      rw [if_pos (by simpa using (by omega : i + 1 + 5 ≤ bs.length))]
      apply Labels.exists_omin
      have : (((bs.map Labels.Bar.low).drop (i+1)).take 5).length = 5 := by
        rw [List.length_take, List.length_drop, List.length_map]
        omega
      intro hnil
      rw [hnil] at this
      simp at this
    obtain ⟨e, he⟩ : ∃ e, Labels.entryPrice bs i = some e := by
      unfold Labels.entryPrice
      rw [List.getElem?_eq_getElem (by omega : i + 1 < bs.length)]
      exact ⟨_, rfl⟩
    refine ⟨M, m, e, hM, hm, he, ?_⟩
    simp [Labels.mkRow, Labels.targetOf, hM, hm, he, optLeB, optLtB, Labels.b2i_eq_one_iff,
      Bool.and_eq_true, decide_eq_true_eq]
  · intro i h
    have hnone : Labels.highRoll20 bs i = none := by
      unfold Labels.highRoll20 Labels.fwdAgg
      rw [if_neg (by simp ; omega)]
    simp [Labels.mkRow, Labels.targetOf, hnone, Labels.optLeB_none_right, b2i]

/-- Witness for C2 at a concrete input: on the 22-bar fixture at signal index 0
the windows are complete and the stated equivalence holds. -/
theorem c2_target_amended_witness :
    ∃ M m e, Labels.highRoll20 Labels.exBars 0 = some M ∧
      Labels.lowRoll5 Labels.exBars 0 = some m ∧
      Labels.entryPrice Labels.exBars 0 = some e ∧
      ((Labels.mkRow (5/100) Labels.exBars 0).target = 1 ↔
        (e * (1 + 5/100) ≤ M ∧ e * (1 - 5/100) < m)) :=
  (c2_target_amended (5/100) Labels.exBars).1 0 (by decide)

/-- Counterexample to C2 as stated: on a 2-bar entity, the row of signal index
0 has an incomplete forward window (both forward extrema are null), yet its
target is the integer 0, not null. -/
theorem c2_counterexample :
    (Labels.labelEntity 1 [Labels.flatBar, Labels.flatBar])[0]? =
      some { entry_price := some 10, high_roll_20 := none, low_roll_5 := none,
             target := 0 } := by
  decide

/-- C3 (confirmed): for every entity and signal index i, generate_labels'
entry_price at i is the open of the entity's next chronological bar (forward
shift of exactly one bar), and is null when i is the entity's last bar (the
i+1 lookup is out of range). -/
theorem c3_entry_price (θ : ℚ) (bs : List Labels.Bar) (i : Nat) :
    ((Labels.labelEntity θ bs)[i]?).map Labels.LabelRow.entry_price =
      if i < bs.length then some ((bs[i+1]?).map Labels.Bar.open_) else none := by
  unfold Labels.labelEntity
  rw [List.getElem?_map]
  by_cases h : i < bs.length
  · rw [if_pos h]
    rw [List.getElem?_range h]
    simp [Labels.mkRow, Labels.entryPrice]
  · rw [if_neg h]
    have hr : (List.range bs.length)[i]? = none := by
      rw [List.getElem?_eq_none]
      simpa using Nat.le_of_not_lt h
    rw [hr]
    rfl

/-- C4 (amended): generate_labels returns normally iff the input panel carries
all of stock_id, date, open, close (validated eagerly, ValueError) and also
high and low (unvalidated, but subscripted by the rolling-window code, so their
absence raises KeyError).  The original claim that the four validated columns
suffice for the call never to raise is refuted by the counterexample. -/
theorem c4_raise_amended (θ : ℚ) (p : Labels.RawPanel) :
    Labels.exceptOk (Labels.generateLabels θ p) =
      (p.cols.contains "stock_id" && p.cols.contains "date" && p.cols.contains "open" &&
       p.cols.contains "close" && p.cols.contains "high" && p.cols.contains "low") := by
  simp only [Labels.generateLabels, Labels.requiredCols, List.all_cons, List.all_nil,
    Bool.and_true]
  cases h1 : p.cols.contains "stock_id" <;> cases h2 : p.cols.contains "date" <;>
    cases h3 : p.cols.contains "open" <;> cases h4 : p.cols.contains "close" <;>
      cases h5 : p.cols.contains "high" <;> cases h6 : p.cols.contains "low" <;>
        simp [Labels.exceptOk]

/-- Counterexample to C4 as stated: a panel holding exactly the four validated
columns stock_id, date, open, close (but not high) passes the eager check and
then raises KeyError at the first subscript of the high column. -/
theorem c4_counterexample :
    Labels.generateLabels (5/100) Labels.panelMissingHigh = .error "KeyError: high" := by
  rfl

namespace Events

lemma perEntity_length (p : EvPanel) (f : Entity → Nat → Bool) :
    (perEntity p f).length = totalRows p := by
  unfold perEntity totalRows
  rw [List.length_flatMap]
  congr 1
  simp

lemma perEntity_vals (p : EvPanel) (f : Entity → Nat → Bool) :
    ∀ v ∈ perEntity p f, v = 0 ∨ v = 1 := by
  intro v hv
  simp only [perEntity, List.mem_flatMap, List.mem_map, List.mem_range] at hv
  obtain ⟨e, _, t, _, rfl⟩ := hv
  cases f e t <;> simp [b2i]

lemma zerosP_length (p : EvPanel) : (zerosP p).length = totalRows p := by
  unfold zerosP totalRows
  rw [List.length_flatMap]
  congr 1
  simp

lemma zerosP_vals (p : EvPanel) : ∀ v ∈ zerosP p, v = 0 := by
  intro v hv
  simp only [zerosP, List.mem_flatMap] at hv
  obtain ⟨e, _, hv⟩ := hv
  exact List.eq_of_mem_replicate hv

lemma shape_priceBreakout (p : EvPanel) (ps : Params) (s : List Int)
    (h : detectPriceBreakout p ps = .ok s) : s = zerosP p ∨ ∃ f, s = perEntity p f := by
  unfold detectPriceBreakout at h
  repeat' split at h
  all_goals first
    | exact Except.noConfusion h
    | (injection h with h; exact Or.inr ⟨_, h.symm⟩)

lemma shape_crossover (p : EvPanel) (ps : Params) (s : List Int)
    (h : detectCrossover p ps = .ok s) : s = zerosP p ∨ ∃ f, s = perEntity p f := by
  unfold detectCrossover at h
  repeat' split at h
  all_goals first
    | exact Except.noConfusion h
    | (injection h with h; exact Or.inr ⟨_, h.symm⟩)
    | (injection h with h; exact Or.inl h.symm)

lemma shape_thresholdCross (p : EvPanel) (ps : Params) (s : List Int)
    (h : detectThresholdCross p ps = .ok s) : s = zerosP p ∨ ∃ f, s = perEntity p f := by
  unfold detectThresholdCross at h
  repeat' split at h
  all_goals first
    | exact Except.noConfusion h
    | (injection h with h; exact Or.inr ⟨_, h.symm⟩)
    | (injection h with h; exact Or.inl h.symm)

lemma shape_pattern (p : EvPanel) (ps : Params) (s : List Int)
    (h : detectPattern p ps = .ok s) : s = zerosP p ∨ ∃ f, s = perEntity p f := by
  unfold detectPattern at h
  repeat' split at h
  all_goals first
    | exact Except.noConfusion h
    | (injection h with h; exact Or.inr ⟨_, h.symm⟩)
    | (injection h with h; exact Or.inl h.symm)

lemma shape_volume (p : EvPanel) (ps : Params) (s : List Int)
    (h : detectVolume p ps = .ok s) : s = zerosP p ∨ ∃ f, s = perEntity p f := by
  unfold detectVolume at h
  repeat' split at h
  all_goals first
    | exact Except.noConfusion h
    | (injection h with h; exact Or.inr ⟨_, h.symm⟩)

lemma dispatch_ok_shape (p : EvPanel) (r : Rule) (s : List Int)
    (h : dispatch p r = .ok s) : s = zerosP p ∨ ∃ f, s = perEntity p f := by
  unfold dispatch at h
  repeat' split at h
  all_goals first
    | exact shape_priceBreakout _ _ _ h
    | exact shape_crossover _ _ _ h
    | exact shape_thresholdCross _ _ _ h
    | exact shape_pattern _ _ _ h
    | exact shape_volume _ _ _ h
    | (injection h with h; exact Or.inl h.symm)

lemma runRule_shape (p : EvPanel) (r : Rule) :
    runRule p r = zerosP p ∨ ∃ f, runRule p r = perEntity p f := by
  unfold runRule
  cases hd : dispatch p r with
  | ok s => exact dispatch_ok_shape p r s hd
  | error e => exact Or.inl rfl

end Events

/-- C5 (confirmed): detect_all_events computes each configured rule in
isolation: the result has exactly one integer column per configured rule, each
column covers every panel row with values in {0,1} (no nulls), a rule whose
computation raises is caught and yields the all-zero column without stopping
the others, an unrecognized rule type yields the all-zero column, and the call
itself is total. -/
theorem c5_event_isolation (p : Events.EvPanel) (rules : List Events.Rule) :
    (Events.detectAllEvents p rules).length = rules.length
    ∧ (∀ pr ∈ Events.detectAllEvents p rules,
        pr.2.length = Events.totalRows p ∧ ∀ v ∈ pr.2, v = 0 ∨ v = 1)
    ∧ (∀ r : Events.Rule, ∀ msg, Events.dispatch p r = .error msg →
        Events.runRule p r = Events.zerosP p)
    ∧ (∀ r : Events.Rule, ¬ r.type ∈ Events.knownTypes →
        Events.runRule p r = Events.zerosP p) := by
  refine ⟨by simp [Events.detectAllEvents], ?_, ?_, ?_⟩
  · intro pr hpr
    simp only [Events.detectAllEvents, List.mem_map] at hpr
    obtain ⟨r, _, rfl⟩ := hpr
    rcases Events.runRule_shape p r with h | ⟨f, h⟩
    · rw [h]
      exact ⟨Events.zerosP_length p, fun v hv => Or.inl (Events.zerosP_vals p v hv)⟩
    · rw [h]
      exact ⟨Events.perEntity_length p f, Events.perEntity_vals p f⟩
  · intro r msg h
    unfold Events.runRule
    rw [h]
  · intro r hr
    simp only [Events.knownTypes, List.mem_cons, List.not_mem_nil, or_false, not_or] at hr
    obtain ⟨h1, h2, h3, h4, h5⟩ := hr
    unfold Events.runRule Events.dispatch
    rw [if_neg (by simpa using h1), if_neg (by simpa using h2), if_neg (by simpa using h3),
      if_neg (by simpa using h4), if_neg (by simpa using h5)]

/-- Witness for C5 at a concrete input: a rule of unrecognized type over the
one-bar fixture panel yields the all-zero column. -/
theorem c5_event_isolation_witness :
    Events.runRule Events.dojiPanel { name := "weird", type := "bogus", params := [] } =
      Events.zerosP Events.dojiPanel :=
  (c5_event_isolation Events.dojiPanel []).2.2.2
    { name := "weird", type := "bogus", params := [] } (by decide)

lemma optLtB_some_some (a b : ℚ) : optLtB (some a) (some b) = decide (a < b) := rfl

lemma optLeB_some_some (a b : ℚ) : optLeB (some a) (some b) = decide (a ≤ b) := rfl

lemma allSome_map_some (l : List ℚ) : allSome (l.map some) = some l := by
  induction l with
  | nil => rfl
  | cons x xs ih => simp [allSome, ih]

lemma allSome_map_comp {α : Type} (g : α → ℚ) (l : List α) :
    allSome (l.map fun x => some (g x)) = some (l.map g) := by
  induction l with
  | nil => rfl
  | cons x xs ih => simp [allSome, ih]

lemma omax_snoc (l : List ℚ) (x : ℚ) :
    omax (l ++ [x]) = some ((omax l).elim x (fun M => max M x)) := by
  cases l with
  | nil => rfl
  | cons y ys => simp [omax, List.foldl_append]

lemma omax_range (f : Nat → ℚ) (a : Nat) :
    ∀ w, omax ((List.range (w+1)).map fun j => f (a+j)) = some (maxOver f a w) := by
  intro w
  induction w with
  | zero => simp [show List.range 1 = [0] from rfl, omax, maxOver]
  | succ k ih =>
    rw [List.range_succ, List.map_append, List.map_singleton, omax_snoc, ih]
    simp [maxOver]
    ring_nf

/- The shifted rolling max over an everywhere-present series, at a row with a
   full window: the maximum of the w values strictly before row t. -/
lemma rollMax_all_some (f : Nat → ℚ) (w t : Nat) (hw : 0 < w) (ht : w ≤ t) :
    rollMax (prevF (fun i => some (f i))) w t = some (maxOver f (t - w) (w - 1)) := by
  unfold rollMax rollWin
  rw [if_pos (by omega)]
  have hcong : (List.range w).map (fun j => prevF (fun i => some (f i)) (t + 1 - w + j)) =
      (List.range w).map (fun j => some (f (t - w + j))) := by
    apply List.map_congr_left
    intro j _
    have hj : t + 1 - w + j = (t - w + j) + 1 := by omega
    rw [hj]
    rfl
  rw [hcong, allSome_map_comp]
  simp only [Option.some_bind]
  obtain ⟨w', rfl⟩ : ∃ w', w = w' + 1 := ⟨w - 1, by omega⟩
  rw [omax_range]
  norm_num

lemma omin_snoc (l : List ℚ) (x : ℚ) :
    omin (l ++ [x]) = some ((omin l).elim x (fun m => min m x)) := by
  cases l with
  | nil => rfl
  | cons y ys => simp [omin, List.foldl_append]

lemma omin_range (f : Nat → ℚ) (a : Nat) :
    ∀ w, omin ((List.range (w+1)).map fun j => f (a+j)) = some (minOver f a w) := by
  intro w
  induction w with
  | zero => simp [show List.range 1 = [0] from rfl, omin, minOver]
  | succ k ih =>
    rw [List.range_succ, List.map_append, List.map_singleton, omin_snoc, ih]
    simp [minOver]
    ring_nf

/- The shifted rolling min over an everywhere-present series, at a row with a
   full window: the minimum of the w values strictly before row t. -/
lemma rollMin_all_some (f : Nat → ℚ) (w t : Nat) (hw : 0 < w) (ht : w ≤ t) :
    rollMin (prevF (fun i => some (f i))) w t = some (minOver f (t - w) (w - 1)) := by
  unfold rollMin rollWin
  rw [if_pos (by omega)]
  have hcong : (List.range w).map (fun j => prevF (fun i => some (f i)) (t + 1 - w + j)) =
      (List.range w).map (fun j => some (f (t - w + j))) := by
    apply List.map_congr_left
    intro j _
    have hj : t + 1 - w + j = (t - w + j) + 1 := by omega
    rw [hj]
    rfl
  rw [hcong, allSome_map_comp]
  simp only [Option.some_bind]
  obtain ⟨w', rfl⟩ : ∃ w', w = w' + 1 := ⟨w - 1, by omega⟩
  rw [omin_range]
  norm_num

/-- C6 (confirmed): for every entity, a crossover rule with direction up fires
at bar t+1 iff fast[t] ≤ slow[t] and fast[t+1] > slow[t+1] (down is the
mirror); while fast stays strictly above slow on two consecutive bars the rule
does not fire on the second; and when either referenced column is absent from
the panel the rule emits the all-zero column without raising. -/
theorem c6_crossover_semantics :
    (∀ fast slow : Nat → Cell, ∀ t : Nat, ∀ a b c d : ℚ,
      fast t = some a → slow t = some b → fast (t+1) = some c → slow (t+1) = some d →
      (Events.crossAt fast slow "up" (t+1) = true ↔ (a ≤ b ∧ d < c)))
    ∧ (∀ fast slow : Nat → Cell, ∀ t : Nat, ∀ a b c d : ℚ,
      fast t = some a → slow t = some b → fast (t+1) = some c → slow (t+1) = some d →
      (Events.crossAt fast slow "down" (t+1) = true ↔ (b ≤ a ∧ c < d)))
    ∧ (∀ fast slow : Nat → Cell, ∀ t : Nat,
      optLtB (slow t) (fast t) = true → optLtB (slow (t+1)) (fast (t+1)) = true →
      Events.crossAt fast slow "up" (t+1) = false)
    ∧ (∀ p : Events.EvPanel, ∀ ps : Events.Params, ∀ fc sc : String,
      ps.lookup "fast_ma" = some (.str fc) → ps.lookup "slow_ma" = some (.str sc) →
      (p.colNames.contains fc && p.colNames.contains sc) = false →
      Events.detectCrossover p ps = .ok (Events.zerosP p)) := by
  refine ⟨?_, ?_, ?_, ?_⟩
  · intro fast slow t a b c d h1 h2 h3 h4
    simp [Events.crossAt, prevF, h1, h2, h3, h4, optLeB, optLtB]
  · intro fast slow t a b c d h1 h2 h3 h4
    simp [Events.crossAt, prevF, h1, h2, h3, h4, optLeB, optLtB]
  · intro fast slow t h1 h2
    rcases hs : slow t with _ | sb <;> rcases hf : fast t with _ | fa <;>
      rw [hs, hf] at h1 <;> simp [optLtB] at h1
    simp only [Events.crossAt, if_pos rfl, prevF, hs, hf, optLeB]
    simp [not_le.2 h1]
  · intro p ps fc sc hf hs hc
    simp only [Events.detectCrossover, Events.getReq, hf, hs, hc]
    rfl

/-- Witness for C6 at a concrete input: two constant columns with fast above
slow on both bars; the crossing equivalence instantiates to a false-iff-false
statement. -/
theorem c6_crossover_semantics_witness :
    Events.crossAt (fun _ => some 2) (fun _ => some 1) "up" 1 = true ↔
      ((2:ℚ) ≤ 1 ∧ (1:ℚ) < 2) :=
  c6_crossover_semantics.1 (fun _ => some 2) (fun _ => some 1) 0 2 1 2 1 rfl rfl rfl rfl

/-- C7 (confirmed): the price_breakout rule with direction up fires iff
close[t] > max(high[t-w..t-1]) (high.shift(1).rolling(w).max()), with
direction down iff close[t] < min(low[t-w..t-1]), and the indicator engine's
breakout flag uses the same up core: in every case the reference window is
the w bars strictly before t, the current bar excluded; the detector emits
exactly these cores over every entity for either direction. -/
theorem c7_breakout_strict :
    (∀ f g : Nat → ℚ, ∀ w t : Nat, 0 < w → w ≤ t →
      (Events.breakAt (fun i => some (f i)) (fun i => some (g i)) w t = true ↔
        maxOver f (t - w) (w - 1) < g t))
    ∧ (∀ f g : Nat → ℚ, ∀ w t : Nat, 0 < w → w ≤ t →
      (optLtB (some (g t)) (rollMin (prevF (fun i => some (f i))) w t) = true ↔
        g t < minOver f (t - w) (w - 1)))
    ∧ (∀ n : Nat, ∀ high close : List Cell, ∀ t : Nat, t < close.length →
      (Indicators.breakoutFlagCol n high close)[t]? =
        some (b2i (Events.breakAt (colFun high) (colFun close) n t)))
    ∧ (∀ p : Events.EvPanel, ∀ w : Nat,
      (p.colNames.contains "high" && p.colNames.contains "close") = true →
      Events.detectPriceBreakout p [("period", .int (w : Int))] =
        .ok (Events.perEntity p fun e t =>
          Events.breakAt (e.colF "high") (e.colF "close") w t))
    ∧ (∀ p : Events.EvPanel, ∀ w : Nat,
      (p.colNames.contains "low" && p.colNames.contains "close") = true →
      Events.detectPriceBreakout p [("period", .int (w : Int)), ("direction", .str "down")] =
        .ok (Events.perEntity p fun e t =>
          optLtB (e.colF "close" t) (rollMin (prevF (e.colF "low")) w t))) := by
  refine ⟨?_, ?_, ?_, ?_, ?_⟩
  · intro f g w t hw ht
    rw [Events.breakAt, rollMax_all_some f w t hw ht]
    simp [optLtB]
  · intro f g w t hw ht
    rw [rollMin_all_some f w t hw ht]
    simp [optLtB]
  · intro n high close t ht
    unfold Indicators.breakoutFlagCol
    rw [List.getElem?_map, List.getElem?_range ht]
    rfl
  · intro p w hc
    have h1 : Events.getIntD [("period", Events.PVal.int (w : Int))] "period" 20 =
        .ok (w : Int) := rfl
    have h2 : Events.toWindow (w : Int) = .ok w := by
      unfold Events.toWindow
      rw [if_neg (by omega), Int.toNat_natCast]
    have h3 : Events.getStrD [("period", Events.PVal.int (w : Int))] "direction" "up" =
        "up" := rfl
    simp only [Events.detectPriceBreakout, h1, h2, h3, hc]
    rfl
  · intro p w hc
    have h1 : Events.getIntD
        [("period", Events.PVal.int (w : Int)), ("direction", Events.PVal.str "down")]
        "period" 20 = .ok (w : Int) := rfl
    have h2 : Events.toWindow (w : Int) = .ok w := by
      unfold Events.toWindow
      rw [if_neg (by omega), Int.toNat_natCast]
    have h3 : Events.getStrD
        [("period", Events.PVal.int (w : Int)), ("direction", Events.PVal.str "down")]
        "direction" "up" = "down" := rfl
    simp only [Events.detectPriceBreakout, h1, h2, h3, hc]
    rfl

/-- Witness for C7 at a concrete input: window 2 at row 3 over constant
series. -/
theorem c7_breakout_strict_witness :
    Events.breakAt (fun _ => some 1) (fun _ => some 2) 2 3 = true ↔
      maxOver (fun _ => (1:ℚ)) 1 1 < 2 :=
  c7_breakout_strict.1 (fun _ => (1:ℚ)) (fun _ => (2:ℚ)) 2 3 (by omega) (by omega)

/-- C8 (amended): the EventDetector's long_upper_shadow pattern fires iff
upper shadow = high - max(open, close) strictly exceeds body x ratio with
body = |close - open|; there is no minimum absolute-length floor, so a
zero-body doji with an arbitrarily small positive upper shadow fires the rule
(the engine-local long_upper_shadow binary event in indicators.py, by
contrast, also requires upper_shadow > 0.5% of close). -/
theorem c8_shadow_amended (r : ℚ) (op cl hi : Nat → Cell) (t : Nat) (a b c : ℚ)
    (ho : op t = some a) (hc : cl t = some b) (hh : hi t = some c) :
    Events.shadowAt r op cl hi t = true ↔ |b - a| * r < c - max a b := by
  simp [Events.shadowAt, ho, hc, hh, oSub, oAbs, oMul, rowMax2, optLtB]

/-- Witness for C8 at a concrete input: the doji bar open = close = 1000,
high = 1001. -/
theorem c8_shadow_amended_witness :
    Events.shadowAt 2 (fun _ => some 1000) (fun _ => some 1000) (fun _ => some 1001) 0 = true ↔
      |(1000:ℚ) - 1000| * 2 < 1001 - max 1000 1000 :=
  c8_shadow_amended 2 _ _ _ 0 1000 1000 1001 rfl rfl rfl

/-- Counterexample to C8 as stated: on the one-bar doji fixture (open = close
= 1000, high = 1001, upper shadow 1, far below a 0.5%-of-close floor of 5),
the configured long_upper_shadow pattern rule fires. -/
theorem c8_counterexample :
    Events.detectPattern Events.dojiPanel Events.shadowParams = .ok [1] := by
  with_unfolding_all rfl

lemma optLtB_none_left (a : Cell) : optLtB none a = false := by cases a <;> rfl

lemma allSome_eq_none_of_mem (l : List Cell) (h : none ∈ l) : allSome l = none := by
  induction l with
  | nil => cases h
  | cons x xs ih =>
    cases x with
    | none => rfl
    | some v =>
      rcases List.mem_cons.mp h with h' | h'
      · exact absurd h' (by simp)
      · simp [allSome, ih h']

lemma allSome_eq_some_of_forall (l : List Cell) (h : ∀ x ∈ l, x.isSome = true) :
    ∃ l', allSome l = some l' ∧ l'.length = l.length := by
  induction l with
  | nil => exact ⟨[], rfl, rfl⟩
  | cons x xs ih =>
    obtain ⟨v, rfl⟩ := Option.isSome_iff_exists.mp (h x (List.mem_cons_self x xs))
    obtain ⟨l', hl', hlen⟩ := ih (fun y hy => h y (List.mem_cons_of_mem _ hy))
    exact ⟨v :: l', by simp [allSome, hl'], by simp [hlen]⟩

lemma omean_ne_none (l : List ℚ) (h : l ≠ []) : ∃ m, omean l = some m := by
  cases l with
  | nil => exact absurd rfl h
  | cons x xs => exact ⟨_, rfl⟩

namespace Indicators

lemma colFun_pivot_lt (k : Nat) (xs : List ℚ) (q : Nat) (h : q < k) :
    colFun (pivotCol k xs) q = none := by
  unfold colFun pivotCol
  rw [List.getElem?_append]
  simp [List.length_replicate, List.getElem?_replicate, h]

lemma colFun_pivot_ge (k : Nat) (xs : List ℚ) (q : Nat) (h : k ≤ q) :
    colFun (pivotCol k xs) q = xs[q - k]? := by
  unfold colFun pivotCol
  rw [List.getElem?_append_right (by simpa using h)]
  rw [List.length_replicate, List.getElem?_map]
  cases xs[q - k]? <;> rfl

end Indicators

/-- C9 (amended): for a pivot column of an entity whose history starts at
global index k and runs gap-free with non-null closes, the MA(n) column is
null for exactly the entity's first n-1 bars and non-null from the n-th bar
on; the breakout flag, by contrast, is an integer 0/1 column that is never
null: throughout its n-bar warm-up (reference window incomplete) it reads 0,
refuting the original claim that every windowed indicator is null over its
warm-up. -/
theorem c9_warmup_amended (n k : Nat) (xs : List ℚ) (hn : 0 < n) :
    (∀ i, i < xs.length →
      ((Indicators.maCol n (Indicators.pivotCol k xs))[k+i]? = some none ↔ i + 1 < n))
    ∧ (∀ high close : List Cell, ∀ t, t < close.length → t < n →
      (Indicators.breakoutFlagCol n high close)[t]? = some 0) := by
  constructor
  · intro i hi
    have hlen : (Indicators.pivotCol k xs).length = k + xs.length := by
      simp [Indicators.pivotCol]
    have hki : k + i < (Indicators.pivotCol k xs).length := by omega
    rw [Indicators.maCol, List.getElem?_map, hlen, List.getElem?_range (by omega)]
    simp only [Option.map_some']
    rw [Option.some_inj]
    by_cases hwin : n ≤ k + i + 1
    · by_cases hfirst : i + 1 < n
      · simp only [hfirst, iff_true]
        unfold rollMean rollWin
        rw [if_pos (by omega)]
        have hmem : none ∈ (List.range n).map
            (fun j => colFun (Indicators.pivotCol k xs) (k + i + 1 - n + j)) := by
          rw [List.mem_map]
          exact ⟨0, List.mem_range.mpr hn,
            Indicators.colFun_pivot_lt k xs _ (by omega)⟩
        rw [allSome_eq_none_of_mem _ hmem]
        rfl
      · simp only [hfirst, iff_false]
        unfold rollMean rollWin
        rw [if_pos (by omega)]
        obtain ⟨l', hl', hlen'⟩ := allSome_eq_some_of_forall
          ((List.range n).map (fun j => colFun (Indicators.pivotCol k xs) (k + i + 1 - n + j)))
          (by
            intro x hx
            rw [List.mem_map] at hx
            obtain ⟨j, hj, rfl⟩ := hx
            rw [List.mem_range] at hj
            rw [Indicators.colFun_pivot_ge k xs _ (by omega)]
            rw [List.getElem?_eq_getElem (by omega)]
            rfl)
        rw [hl']
        obtain ⟨m, hm⟩ := omean_ne_none l' (by
          intro hnil
          rw [hnil] at hlen'
          simp at hlen'
          omega)
        simp [hm]
    · have hfirst : i + 1 < n := by omega
      simp only [hfirst, iff_true]
      unfold rollMean rollWin
      rw [if_neg (by omega)]
      rfl
  · intro high close t ht htn
    rw [Indicators.breakoutFlagCol, List.getElem?_map, List.getElem?_range ht]
    have hroll : rollMax (prevF (colFun high)) n t = none := by
      unfold rollMax rollWin
      by_cases hw : n ≤ t + 1
      · rw [if_pos hw]
        have hmem : none ∈ (List.range n).map (fun j => prevF (colFun high) (t + 1 - n + j)) := by
          rw [List.mem_map]
          refine ⟨0, List.mem_range.mpr hn, ?_⟩
          have h0 : t + 1 - n + 0 = 0 := by omega
          rw [h0]
          rfl
        rw [allSome_eq_none_of_mem _ hmem]
        rfl
      · rw [if_neg hw]
        rfl
    simp [Events.breakAt, hroll, optLtB_none_left, b2i]

/-- Witness for C9 at a concrete input: MA(2) over a 2-bar entity starting at
global index 1 is null at the entity's first bar. -/
theorem c9_warmup_amended_witness :
    ((Indicators.maCol 2 (Indicators.pivotCol 1 [5, 7]))[1+0]? = some none ↔ 0 + 1 < 2) :=
  (c9_warmup_amended 2 1 [5, 7] (by omega)).1 0 (by norm_num)

/-- Counterexample to C9 as stated: breakout_flag with window 60 over a
one-bar entity: bar 0 lies inside the warm-up (the first 59 bars), where the
claim demands a null cell, yet the column holds the integer 0. -/
theorem c9_counterexample :
    Indicators.breakoutFlagCol 60 [some 1] [some 1] = [0] := by decide

/-- C10 (confirmed): in calculate_rsi (Wilder smoothing, alpha = 1/period),
wherever the smoothed avg_loss is 0 while avg_gain is positive the float
arithmetic yields rs = +inf and RSI = 100 - 100/(1 + inf) = exactly 100, not
null; wherever avg_gain and avg_loss are both 0 the ratio is 0/0 = NaN and
the RSI cell is NaN, a null in the merged frame. -/
theorem c10_rsi_policy (period : Nat) (close : Nat → ℚ) (u : Nat) :
    (Indicators.avgLoss period close u = 0 → 0 < Indicators.avgGain period close u →
      Indicators.rsiAt period close u = .fin 100)
    ∧ (Indicators.avgLoss period close u = 0 → Indicators.avgGain period close u = 0 →
      Indicators.rsiAt period close u = .nan) := by
  constructor
  · intro hl hg
    unfold Indicators.rsiAt
    rw [hl]
    have h1 : Indicators.XQ.div (.fin (Indicators.avgGain period close u)) (.fin 0) =
        .pinf := by
      simp [Indicators.XQ.div, hg]
    rw [h1]
    have h2 : Indicators.XQ.add (.fin 1) .pinf = .pinf := rfl
    rw [h2]
    have h3 : Indicators.XQ.div (.fin 100) .pinf = .fin 0 := rfl
    rw [h3]
    simp [Indicators.XQ.sub]
  · intro hl hg
    unfold Indicators.rsiAt
    rw [hl, hg]
    simp [Indicators.XQ.div, Indicators.XQ.add, Indicators.XQ.sub]

/-- Witness for C10 at a concrete input: a strictly rising two-step close
series at the first smoothed row gives avg_loss = 0, avg_gain > 0 and RSI
exactly 100. -/
theorem c10_rsi_policy_witness :
    Indicators.rsiAt 14 Indicators.risingClose 0 = .fin 100 :=
  (c10_rsi_policy 14 Indicators.risingClose 0).1
    (by with_unfolding_all decide) (by with_unfolding_all decide)
